import Mathlib

/-!
Verification development for the `plop` statistical profiler
(`plop/collector.py`): a shallow embedding of the sampling collector
state machine, the stack-capture routine, the two output formatters and
the tail of `main`, together with theorems about the claims of the
specification.

Conventions of the embedding:
* Python `int` is `ℤ` (or `ℕ` for counters that never go negative),
  durations/intervals are exact rationals `ℚ` (binary floating point is
  out of scope; `int(x)` truncation toward zero is `ratTrunc`).
* The signal/timer machinery is modelled by an explicit `timerArmed`
  flag: `setitimer(t, i, i)` sets it, `setitimer(t, 0, 0)` clears it,
  and a timer tick can only invoke the handler while it is set.
* Runtime frame chains (`sys._current_frames`, `frame.f_back`) are
  modelled as lists of `(code object, currently executing line)` pairs,
  leaf first, supplied to the handler as external input of each tick.
* Wall-clock time spent inside the handler (`time.time()` differences)
  is an external per-tick input `dt`.
* The source attribute `stacks` is called `stacks_` here because
  `stacks` is a reserved token in this Lean environment.
-/

/-- One code object: the fields of `frame.f_code` read by the collector
(`co_filename`, `co_firstlineno`, `co_name`). -/
structure CodeObject where
  co_filename : String
  co_firstlineno : ℕ
  co_name : String
deriving DecidableEq

/-- One captured call-stack entry, exactly the triple appended by the
handler: `(code.co_filename, code.co_firstlineno, code.co_name)`. -/
abbrev Frame := String × ℕ × String

/-- A captured stack: ordered list of Frames, leaf (innermost call)
first, as built by the `while frame is not None` walk over `f_back`. -/
abbrev Stack := List Frame

/-- A live frame chain as the runtime presents it to the handler: for
each frame along the `f_back` links (leaf first), its code object and
the line currently being executed in it. -/
abbrev FrameChain := List (CodeObject × ℕ)

/-- The triple recorded for one frame:
`frames.append((code.co_filename, code.co_firstlineno, code.co_name))`. -/
def frameEntry (code : CodeObject) : Frame :=
  (code.co_filename, code.co_firstlineno, code.co_name)

/-- The capture loop of the handler: walk the frame chain and record
`frameEntry` of the code object of each frame (the current line of the
frame, `f_lineno`, is never read). -/
def captureFrames (chain : FrameChain) : Stack :=
  chain.map (fun p => frameEntry p.1)

/-- Python `int(q)` on a rational: truncation toward zero. -/
def ratTrunc (q : ℚ) : ℤ :=
  Int.tdiv q.num (q.den : ℤ)

/-- The mutable state of a `Collector` instance: the fields set by
`__init__`/`reset`, plus the `timerArmed` flag modelling whether
`setitimer` currently has a recurring interval programmed. -/
structure CollectorState where
  interval : ℚ
  stacks_ : List Stack
  samples_remaining : ℤ
  stopping : Bool
  stopped : Bool
  samples_taken : ℕ
  sample_time : ℕ
  timerArmed : Bool
deriving DecidableEq

namespace Collector

/-- `Collector.reset`: clears the sample store and zeroes every counter
and flag.  It does not touch the interval, nor the timer. -/
def reset (s : CollectorState) : CollectorState :=
  { s with stacks_ := [], samples_remaining := 0, stopping := false,
           stopped := false, samples_taken := 0, sample_time := 0 }

/-- `Collector.__init__(interval, mode)`: installs the signal handler
and calls `reset`; no timer is armed yet. -/
def init (interval : ℚ) : CollectorState :=
  reset { interval := interval, stacks_ := [], samples_remaining := 0,
          stopping := false, stopped := false, samples_taken := 0,
          sample_time := 0, timerArmed := false }

/-- `Collector.start(duration)`: clears the stop flags, sets
`samples_remaining = int(duration / interval)` and arms the interval
timer.  Note that it neither clears the sample store nor checks whether
the timer is already armed. -/
def start (duration : ℚ) (s : CollectorState) : CollectorState :=
  { s with stopping := false, stopped := false,
           samples_remaining := ratTrunc (duration / s.interval),
           timerArmed := true }

/-- The state mutation performed by `Collector.stop()`: it sets
`stopping = True` and then busy-waits (`wait`) until `stopped` is true;
the busy wait itself performs no further mutation, and it returns
exactly when `stopped` holds. -/
def stop (s : CollectorState) : CollectorState :=
  { s with stopping := true }

/-- `Collector.handler(sig, current_frame)`, invoked on a timer tick.
`chains` are the frame chains of all live threads as captured at this
tick (with the chain of the interrupting thread taken from `current_frame`),
`dt` is the wall-clock time spent in the capture loop. -/
def handler (s : CollectorState) (chains : List FrameChain) (dt : ℕ) :
    CollectorState :=
  let s1 := { s with samples_remaining := s.samples_remaining - 1 }
  if s1.samples_remaining ≤ 0 ∨ s1.stopping = true then
    { s1 with timerArmed := false, stopped := true }
  else
    { s1 with stacks_ := s1.stacks_ ++ chains.map captureFrames,
              samples_taken := s1.samples_taken + 1,
              sample_time := s1.sample_time + dt }

/-- The external events that can act on a collector: a `start(duration)`
call, a timer tick (delivered only while the timer is armed), a
`stop()` call, and a `reset()` call. -/
inductive Event where
  | start (duration : ℚ)
  | tick (chains : List FrameChain) (dt : ℕ)
  | stop
  | reset
deriving DecidableEq

/-- One step of the collector under an external event.  A tick only
reaches the handler while the timer is armed; a disarmed timer delivers
no signal. -/
def step (s : CollectorState) : Event → CollectorState
  | Event.start d => Collector.start d s
  | Event.tick chains dt => if s.timerArmed = true then handler s chains dt else s
  | Event.stop => Collector.stop s
  | Event.reset => Collector.reset s

/-- Run a sequence of events from a state. -/
def run (s : CollectorState) (l : List Event) : CollectorState :=
  l.foldl step s

/-- A state is reachable when some event sequence produces it from a
freshly constructed collector with the given interval. -/
def Reachable (interval : ℚ) (s : CollectorState) : Prop :=
  ∃ l : List Event, run (init interval) l = s

/-- Events that can occur during a session after `start`: ticks and
`stop()` calls (no `start`/`reset`). -/
def isSessionEvent : Event → Bool
  | Event.tick _ _ => true
  | Event.stop => true
  | _ => false

end Collector

/-! ## Aggregation and formatters -/

/-- Total count in an association list produced by aggregation. -/
def sumCounts (l : List (Stack × ℕ)) : ℕ :=
  (l.map (fun p => p.2)).sum

/-- One `stack_counts[tuple(frames)] += 1` update on the aggregation
mapping, represented as an association list in first-insertion order. -/
def aggregateIncr : List (Stack × ℕ) → Stack → List (Stack × ℕ)
  | [], st => [(st, 1)]
  | (k, v) :: rest, st =>
      if k = st then (k, v + 1) :: rest else (k, v) :: aggregateIncr rest st

/-- The aggregation loop of `PlopFormatter.format`: groups the stacks of
the store by structural equality and counts occurrences. -/
def aggregate (stacks_ : List Stack) : List (Stack × ℕ) :=
  stacks_.foldl aggregateIncr []

/-- Insert an entry into a list already sorted by descending count,
after every entry of count greater than or equal to its own (so that
entries of equal count keep their original relative order). -/
def insertByCountDesc (x : Stack × ℕ) : List (Stack × ℕ) → List (Stack × ℕ)
  | [] => [x]
  | y :: rest => if y.2 ≤ x.2 then x :: y :: rest else y :: insertByCountDesc x rest

/-- `sorted(stack_counts.iteritems(), key=lambda kv: -kv[1])`: Python
`sorted` is a stable sort, modelled here as stable insertion sort by
descending count. -/
def sortByCountDesc : List (Stack × ℕ) → List (Stack × ℕ)
  | [] => []
  | x :: rest => insertByCountDesc x (sortByCountDesc rest)

/-- A `PlopFormatter` instance: its single attribute. -/
structure PlopFormatter where
  max_stacks : ℕ
deriving DecidableEq

/-- `PlopFormatter.__init__(self, max_stacks=50)`: the body is
`self.max_stacks = 50`, so the argument is ignored and the attribute is
always 50. -/
def plopInit ( max_stacks : ℕ) : PlopFormatter :=
  { max_stacks := 50 }

/-- `PlopFormatter.format`: aggregate the store, sort by descending
count, keep the first `self.max_stacks` entries.  The result is the
sequence of retained (stack, count) entries; the final `dict`/`repr`
serialization (whose ordering is Python-2 hash order) is not modelled. -/
def PlopFormatter.format (f : PlopFormatter) (stacks_ : List Stack) :
    List (Stack × ℕ) :=
  (sortByCountDesc (aggregate stacks_)).take f.max_stacks

/-- `FlamegraphFormatter.format_flame`: render a stack outermost-first,
each frame as `name (source:line)`, joined with semicolons. -/
def format_flame (stack : Stack) : String :=
  String.intercalate ";"
    (stack.reverse.map (fun f => f.2.2 ++ " (" ++ f.1 ++ ":" ++ toString f.2.1 ++ ")"))

/-- Python `"%s" % previous` where `previous` is `None` or a string. -/
def optStr : Option String → String
  | none => "None"
  | some v => v

/-- One iteration of the loop of `FlamegraphFormatter.format`; the
accumulator is `(output, previous, previous_count)`, with `previous`
initially `None`. -/
def flameStep (acc : String × Option String × ℕ) (current : String) :
    String × Option String × ℕ :=
  if some current = acc.2.1 then
    (acc.1, acc.2.1, acc.2.2 + 1)
  else
    (acc.1 ++ optStr acc.2.1 ++ " " ++ toString acc.2.2 ++ "\n", some current, 1)

/-- `FlamegraphFormatter.format`: run-length encode consecutive
identical rendered stacks, starting from `previous = None,
previous_count = 1`, flushing `"%s %d\n" % (previous, previous_count)`
on each change and once more after the loop. -/
def FlamegraphFormatter.format (stacks_ : List Stack) : String :=
  let acc := stacks_.foldl (fun a st => flameStep a (format_flame st)) ("", none, 1)
  acc.1 ++ optStr acc.2.1 ++ " " ++ toString acc.2.2 ++ "\n"

/-- The tail of `main` after `collector.stop()` returns: if any samples
were taken, the formatted output is written to the output file and a
"profile output saved" message is reported; otherwise no file is
written and the distinct "no samples collected" message is reported.
The first component is the file write performed (filename, contents). -/
def mainFinish (c : CollectorState) (render : List Stack → String)
    (filename : String) : Option (String × String) × String :=
  if c.samples_taken ≠ 0 then
    (some (filename, render c.stacks_), "profile output saved to " ++ filename)
  else
    (none, "no samples collected; program was too fast")

/-! ## Shared helpers -/

/-- For a nonnegative rational, Python truncation toward zero agrees
with the floor. -/
lemma ratTrunc_eq_floor (q : ℚ) (h : 0 ≤ q) : ratTrunc q = ⌊q⌋ := by
  rw [Rat.floor_def]
  exact Int.tdiv_eq_ediv (Rat.num_nonneg.mpr h) (Int.natCast_nonneg q.den)

/-- The state of a fresh collector with interval 1 after `start(3)`. -/
def sStart3 : CollectorState :=
  { interval := 1, stacks_ := [], samples_remaining := 3, stopping := false,
    stopped := false, samples_taken := 0, sample_time := 0, timerArmed := true }

lemma start_init_eval : Collector.start 3 (Collector.init 1) = sStart3 := by
  have hval : ratTrunc ((3 : ℚ) / 1) = 3 := by
    have h : (3 : ℚ) / 1 = 3 := by norm_num
    rw [h]; decide
  calc Collector.start 3 (Collector.init 1)
      = { sStart3 with samples_remaining := ratTrunc ((3 : ℚ) / 1) } := rfl
    _ = sStart3 := by rw [hval]; rfl

/-- The invariant connecting `stopped` to the timer: once `stopped` is
observed true, the timer has been disarmed. -/
def StoppedDisarmed (s : CollectorState) : Prop :=
  s.stopped = true → s.timerArmed = false

lemma stoppedDisarmed_step (s : CollectorState) (e : Collector.Event)
    (h : StoppedDisarmed s) : StoppedDisarmed (Collector.step s e) := by
  cases e with
  | start d =>
      intro hst
      simp [Collector.step, Collector.start] at hst
  | tick chains dt =>
      by_cases ha : s.timerArmed = true
      · simp only [Collector.step, ha, if_pos]
        unfold Collector.handler
        dsimp only
        split
        · intro _; rfl
        · intro hst
          exact absurd (h hst) (by simp [ha])
      · simpa [Collector.step, ha] using h
  | stop =>
      intro hst
      exact h hst
  | reset =>
      intro hst
      simp [Collector.step, Collector.reset] at hst

lemma stoppedDisarmed_run (s : CollectorState) (l : List Collector.Event)
    (h : StoppedDisarmed s) : StoppedDisarmed (Collector.run s l) := by
  induction l generalizing s with
  | nil => exact h
  | cons e rest ih =>
      exact ih (Collector.step s e) (stoppedDisarmed_step s e h)

lemma reachable_stoppedDisarmed (i : ℚ) (s : CollectorState)
    (h : Collector.Reachable i s) : StoppedDisarmed s := by
  obtain ⟨l, hl⟩ := h
  rw [← hl]
  exact stoppedDisarmed_run (Collector.init i) l (by intro hst; cases hst)

lemma sumCounts_aggregateIncr (acc : List (Stack × ℕ)) (st : Stack) :
    sumCounts (aggregateIncr acc st) = sumCounts acc + 1 := by
  induction acc with
  | nil => rfl
  | cons y rest ih =>
      obtain ⟨k, v⟩ := y
      by_cases h : k = st
      · simp only [aggregateIncr, if_pos h, sumCounts, List.map_cons, List.sum_cons]
        omega
      · simp only [aggregateIncr, if_neg h, sumCounts, List.map_cons, List.sum_cons] at ih ⊢
        omega

lemma sumCounts_foldl_aggregateIncr (stacks_ : List Stack) :
    ∀ acc, sumCounts (stacks_.foldl aggregateIncr acc)
      = sumCounts acc + stacks_.length := by
  induction stacks_ with
  | nil => intro acc; simp
  | cons st rest ih =>
      intro acc
      simp only [List.foldl_cons, List.length_cons]
      rw [ih, sumCounts_aggregateIncr]
      omega

/-! ## Claim theorems -/

/-- Claim C5: the aggregation step that groups Samples by full
structural equality of their Stacks produces a mapping whose counts,
before any top-K truncation, sum to exactly the length of the store. -/
theorem aggregate_counts_sum_to_store_length (stacks_ : List Stack) :
    sumCounts (aggregate stacks_) = stacks_.length := by
  unfold aggregate
  rw [sumCounts_foldl_aggregateIncr]
  simp [sumCounts]

lemma captureFrames_eq_map (chain : FrameChain) :
    captureFrames chain = (chain.map Prod.fst).map frameEntry := by
  simp [captureFrames, List.map_map]

/-- Claim C10: the line-number component of every captured Frame is the
first line of the enclosing code object (`co_firstlineno`), not the
line currently being executed; hence the captured stack depends only on
the code objects of the chain, so samples of the same function record
an identical Frame regardless of which statement was executing. -/
theorem capture_ignores_executing_line (chain₁ chain₂ : FrameChain)
    (h : chain₁.map Prod.fst = chain₂.map Prod.fst) :
    captureFrames chain₁ = captureFrames chain₂
    ∧ (∀ code lineno (rest : FrameChain),
        captureFrames ((code, lineno) :: rest)
          = (code.co_filename, code.co_firstlineno, code.co_name)
              :: captureFrames rest) := by
  constructor
  · rw [captureFrames_eq_map, captureFrames_eq_map, h]
  · intro code lineno rest
    rfl

/-- A code object used in concrete witnesses. -/
def codeF : CodeObject := { co_filename := "f.py", co_firstlineno := 1, co_name := "f" }

/-- Witness for C10: the same code object interrupted at line 10 and at
line 20 captures the same Frame. -/
theorem capture_ignores_executing_line_witness :
    captureFrames [(codeF, 10)] = captureFrames [(codeF, 20)] :=
  (capture_ignores_executing_line [(codeF, 10)] [(codeF, 20)] (by decide)).1

/-- Claim C9: when a session ends with `samples_taken == 0`, no output
file is written and the distinct "no samples collected" status is
reported; when `samples_taken > 0`, the formatted output is stored to
the output file and the "profile saved" status is reported. -/
theorem zero_samples_no_file (c : CollectorState) (render : List Stack → String)
    (filename : String) :
    (c.samples_taken = 0 →
        mainFinish c render filename
          = (none, "no samples collected; program was too fast"))
    ∧ (c.samples_taken ≠ 0 →
        mainFinish c render filename
          = (some (filename, render c.stacks_),
             "profile output saved to " ++ filename)) := by
  constructor
  · intro h
    simp [mainFinish, h]
  · intro h
    simp [mainFinish, h]

/-- Witness for C9: a fresh collector took no samples, so no file write
happens and the no-samples status is reported. -/
theorem zero_samples_no_file_witness :
    mainFinish (Collector.init 1) (fun _ => "") "p.plop"
      = (none, "no samples collected; program was too fast") :=
  (zero_samples_no_file (Collector.init 1) (fun _ => "") "p.plop").1 rfl

/-- Claim C8: `reset()` clears the SampleStore and zeroes every counter
and flag, and it is the only operation that clears the store: `start()`
leaves previously captured Samples unchanged, the handler only ever
appends, and `stop()` does not touch the store. -/
theorem reset_clears_others_preserve (s : CollectorState) (d : ℚ)
    (chains : List FrameChain) (dt : ℕ) :
    Collector.reset s
      = { s with stacks_ := [], samples_remaining := 0, stopping := false,
                 stopped := false, samples_taken := 0, sample_time := 0 }
    ∧ (Collector.start d s).stacks_ = s.stacks_
    ∧ ((Collector.handler s chains dt).stacks_ = s.stacks_
        ∨ (Collector.handler s chains dt).stacks_
            = s.stacks_ ++ chains.map captureFrames)
    ∧ (Collector.stop s).stacks_ = s.stacks_ := by
  refine ⟨rfl, rfl, ?_, rfl⟩
  unfold Collector.handler
  dsimp only
  split
  · left; rfl
  · right; rfl

/-- A first concrete stack, distinct from `stackB`. -/
def stackA : Stack := [("f.py", 1, "a")]

/-- A second concrete stack, distinct from `stackA`. -/
def stackB : Stack := [("f.py", 2, "b")]

/-- Claim C1 (code bug): on the store [A, A, A, B, A] the folded-stack
formatter emits a spurious leading line rendering the `previous = None`
sentinel, so the output is not one line per run and the counts sum to
`len(store) + 1`, not `len(store)`. -/
theorem flamegraph_leading_none_line :
    FlamegraphFormatter.format [stackA, stackA, stackA, stackB, stackA]
      = "None 1\na (f.py:1) 3\nb (f.py:2) 1\na (f.py:1) 1\n"
    ∧ FlamegraphFormatter.format [stackA, stackA, stackA, stackB, stackA]
      ≠ "a (f.py:1) 3\nb (f.py:2) 1\na (f.py:1) 1\n" := by
  constructor
  · rfl
  · decide

/-- Claim C3 (code bug): `PlopFormatter.__init__` ignores its
`max_stacks` argument and always sets the attribute to 50; with a
configured `max_stacks = 1` and two distinct stacks, the output keeps 2
entries instead of at most 1. -/
theorem plop_max_stacks_ignored :
    (plopInit 1).max_stacks = 50
    ∧ ((plopInit 1).format [stackA, stackB]).length = 2
    ∧ ¬ ((plopInit 1).format [stackA, stackB]).length ≤ 1 := by
  refine ⟨rfl, rfl, ?_⟩
  decide

/-- Claim C4: on a tick where, after decrementing, `samples_remaining`
is at most 0 or `stopping` is set, the handler disarms the timer, marks
`stopped` and returns without capturing any stack; on every reachable
state, `stopped` implies the timer is disarmed, and while `stopped`
holds a tick appends nothing to the store. -/
theorem handler_terminal_transition (i : ℚ) (s : CollectorState)
    (hreach : Collector.Reachable i s) :
    (∀ chains dt, (s.samples_remaining - 1 ≤ 0 ∨ s.stopping = true) →
        Collector.handler s chains dt
          = { s with samples_remaining := s.samples_remaining - 1,
                     timerArmed := false, stopped := true })
    ∧ (s.stopped = true → s.timerArmed = false)
    ∧ (s.stopped = true →
        ∀ chains dt, Collector.step s (Collector.Event.tick chains dt) = s) := by
  have hinv := reachable_stoppedDisarmed i s hreach
  refine ⟨?_, hinv, ?_⟩
  · intro chains dt h
    unfold Collector.handler
    dsimp only
    rw [if_pos h]
  · intro hst chains dt
    simp [Collector.step, hinv hst]

/-- The terminal state of a full three-tick session of a fresh
interval-1 collector started with duration 3. -/
def s4 : CollectorState :=
  { interval := 1, stacks_ := [], samples_remaining := 0, stopping := false,
    stopped := true, samples_taken := 2, sample_time := 0, timerArmed := false }

lemma reach_s4 : Collector.Reachable 1 s4 := by
  refine ⟨[Collector.Event.start 3, Collector.Event.tick [] 0,
           Collector.Event.tick [] 0, Collector.Event.tick [] 0], ?_⟩
  simp only [Collector.run, List.foldl, Collector.step]
  rw [start_init_eval]
  decide

/-- Witness for C4: a concrete reachable stopped state has the timer
disarmed, and a further tick on it changes nothing. -/
theorem handler_terminal_transition_witness :
    s4.stopped = true ∧ s4.timerArmed = false
    ∧ Collector.step s4 (Collector.Event.tick [[(codeF, 3)]] 1) = s4 :=
  ⟨rfl, (handler_terminal_transition 1 s4 reach_s4).2.1 rfl,
   (handler_terminal_transition 1 s4 reach_s4).2.2 rfl [[(codeF, 3)]] 1⟩

/-- Claim C7: `stop()` is idempotent.  In a reachable state where a
first `stop()` has completed (`stopping` and `stopped` both set), a
second `stop()` leaves the state literally unchanged (so `stopped`
stays true and `samples_remaining` stays frozen), and no further tick
appends any Sample. -/
theorem stop_idempotent (i : ℚ) (s : CollectorState)
    (hreach : Collector.Reachable i s)
    (hstopped : s.stopped = true) (hstopping : s.stopping = true) :
    Collector.stop s = s
    ∧ (∀ chains dt, Collector.step s (Collector.Event.tick chains dt) = s) := by
  have hinv := reachable_stoppedDisarmed i s hreach
  constructor
  · unfold Collector.stop
    rw [← hstopping]
  · intro chains dt
    simp [Collector.step, hinv hstopped]

/-- The state of a fresh interval-1 collector started with duration 3
after `stop()` was requested and the final tick observed it. -/
def s7 : CollectorState :=
  { interval := 1, stacks_ := [], samples_remaining := 2, stopping := true,
    stopped := true, samples_taken := 0, sample_time := 0, timerArmed := false }

lemma reach_s7 : Collector.Reachable 1 s7 := by
  refine ⟨[Collector.Event.start 3, Collector.Event.stop,
           Collector.Event.tick [] 0], ?_⟩
  simp only [Collector.run, List.foldl, Collector.step]
  rw [start_init_eval]
  decide

/-- Witness for C7: on a concrete reachable state after a completed
`stop()`, a second `stop()` is the identity and a tick changes
nothing. -/
theorem stop_idempotent_witness :
    Collector.stop s7 = s7
    ∧ Collector.step s7 (Collector.Event.tick [] 0) = s7 :=
  ⟨(stop_idempotent 1 s7 reach_s7 rfl rfl).1,
   (stop_idempotent 1 s7 reach_s7 rfl rfl).2 [] 0⟩

/-- Counterexample to C6: `sStart3` is a reachable Running state (timer
armed, not stopped), and `start(2)` on it does not report any error: it
simply re-arms the timer with the fresh budget `int(2 / 1) = 2`,
replacing the prior schedule. -/
theorem start_while_running_rearms :
    Collector.Reachable 1 sStart3
    ∧ sStart3.timerArmed = true ∧ sStart3.stopped = false
    ∧ Collector.start 2 sStart3
        = { interval := 1, stacks_ := [], samples_remaining := 2,
            stopping := false, stopped := false, samples_taken := 0,
            sample_time := 0, timerArmed := true } := by
  refine ⟨⟨[Collector.Event.start 3], ?_⟩, rfl, rfl, ?_⟩
  · simp only [Collector.run, List.foldl, Collector.step]
    exact start_init_eval
  · have hval : ratTrunc ((2 : ℚ) / 1) = 2 := by
      have h : (2 : ℚ) / 1 = 2 := by norm_num
      rw [h]; decide
    calc Collector.start 2 sStart3
        = { sStart3 with samples_remaining := ratTrunc ((2 : ℚ) / 1) } := rfl
      _ = _ := by rw [hval]; rfl

/-- Claim C6 (amended): `start(duration)` sets `samples_remaining` to
`floor(duration / interval)` (for positive duration and interval),
clears the stop flags, leaves the store untouched and arms the interval
timer — unconditionally: when the collector is already Running it
re-arms with the new budget instead of failing. -/
theorem start_sets_budget_and_arms (s : CollectorState) (d : ℚ)
    (hi : 0 < s.interval) (hd : 0 < d) :
    (Collector.start d s).samples_remaining = ⌊d / s.interval⌋
    ∧ (Collector.start d s).timerArmed = true
    ∧ (Collector.start d s).stopping = false
    ∧ (Collector.start d s).stopped = false
    ∧ (Collector.start d s).stacks_ = s.stacks_ := by
  refine ⟨?_, rfl, rfl, rfl, rfl⟩
  show ratTrunc (d / s.interval) = ⌊d / s.interval⌋
  exact ratTrunc_eq_floor _ (le_of_lt (div_pos hd hi))

lemma session_step_potential (s : CollectorState) (e : Collector.Event)
    (he : Collector.isSessionEvent e = true) :
    (Collector.step s e).samples_taken
        + ((Collector.step s e).samples_remaining - 1).toNat
      ≤ s.samples_taken + (s.samples_remaining - 1).toNat := by
  cases e with
  | start d => simp [Collector.isSessionEvent] at he
  | reset => simp [Collector.isSessionEvent] at he
  | stop => simp [Collector.step, Collector.stop]
  | tick chains dt =>
      by_cases ha : s.timerArmed = true
      · simp only [Collector.step, ha, if_pos]
        unfold Collector.handler
        dsimp only
        split
        · dsimp only
          omega
        · rename_i hcond
          dsimp only
          push_neg at hcond
          omega
      · simp [Collector.step, ha]

lemma session_run_potential (l : List Collector.Event) :
    ∀ s : CollectorState, (∀ e ∈ l, Collector.isSessionEvent e = true) →
      (Collector.run s l).samples_taken
          + ((Collector.run s l).samples_remaining - 1).toNat
        ≤ s.samples_taken + (s.samples_remaining - 1).toNat := by
  induction l with
  | nil => intro s _; exact le_refl _
  | cons e rest ih =>
      intro s hl
      have h1 := session_step_potential s e (hl e (List.mem_cons_self e rest))
      have h2 := ih (Collector.step s e)
        (fun x hx => hl x (List.mem_cons_of_mem e hx))
      simp only [Collector.run, List.foldl_cons] at h2 ⊢
      exact le_trans h2 h1

/-- A tick delivered while the timer is armed reaches the handler. -/
lemma step_tick_armed (s : CollectorState) (chains : List FrameChain) (dt : ℕ)
    (h : s.timerArmed = true) :
    Collector.step s (Collector.Event.tick chains dt) = Collector.handler s chains dt := by
  simp [Collector.step, h]

/-- Shape of the terminal branch of the handler. -/
lemma handler_terminal_eq (s : CollectorState) (chains : List FrameChain) (dt : ℕ)
    (h : s.samples_remaining - 1 ≤ 0 ∨ s.stopping = true) :
    Collector.handler s chains dt
      = { s with samples_remaining := s.samples_remaining - 1,
                 timerArmed := false, stopped := true } := by
  unfold Collector.handler
  dsimp only
  rw [if_pos h]

/-- Shape of the capturing branch of the handler. -/
lemma handler_capture_eq (s : CollectorState) (chains : List FrameChain) (dt : ℕ)
    (hrem : 1 ≤ s.samples_remaining - 1) (hstop : s.stopping = false) :
    Collector.handler s chains dt
      = { s with stacks_ := s.stacks_ ++ chains.map captureFrames,
                 samples_remaining := s.samples_remaining - 1,
                 samples_taken := s.samples_taken + 1,
                 sample_time := s.sample_time + dt } := by
  unfold Collector.handler
  dsimp only
  have hcond : ¬(s.samples_remaining - 1 ≤ 0 ∨ s.stopping = true) := by
    rw [hstop]
    simp only [Bool.false_eq_true, or_false]
    omega
  rw [if_neg hcond]

lemma full_run_taken (ticks : List (List FrameChain × ℕ)) :
    ∀ (s : CollectorState) (r : ℕ),
      s.samples_remaining = (r : ℤ) → s.stopping = false →
      s.timerArmed = true → 1 ≤ r → ticks.length = r →
      (Collector.run s
          (ticks.map (fun t => Collector.Event.tick t.1 t.2))).samples_taken
          = s.samples_taken + (r - 1)
      ∧ (Collector.run s
          (ticks.map (fun t => Collector.Event.tick t.1 t.2))).stopped = true
      ∧ (Collector.run s
          (ticks.map (fun t => Collector.Event.tick t.1 t.2))).timerArmed = false := by
  induction ticks with
  | nil =>
      intro s r h1 h2 h3 h4 h5
      simp at h5
      exfalso
      omega
  | cons t rest ih =>
      intro s r h1 h2 h3 h4 h5
      simp only [List.map_cons, Collector.run, List.foldl_cons]
      rw [step_tick_armed s t.1 t.2 h3]
      by_cases hr : r = 1
      · have hrest : rest = [] := by
          rw [List.length_cons] at h5
          exact List.length_eq_zero.mp (by omega)
        rw [handler_terminal_eq s t.1 t.2 (Or.inl (by omega)), hrest]
        subst hr
        refine ⟨?_, rfl, rfl⟩
        show s.samples_taken = s.samples_taken + (1 - 1)
        omega
      · rw [handler_capture_eq s t.1 t.2 (by omega) h2]
        have hrec := ih
          ({ s with stacks_ := s.stacks_ ++ (t.1).map captureFrames,
                    samples_remaining := s.samples_remaining - 1,
                    samples_taken := s.samples_taken + 1,
                    sample_time := s.sample_time + t.2 })
          (r - 1)
          (show s.samples_remaining - 1 = ((r - 1 : ℕ) : ℤ) by omega)
          h2 h3 (by omega)
          (by rw [List.length_cons] at h5; omega)
        simp only [Collector.run] at hrec
        refine ⟨?_, hrec.2.1, hrec.2.2⟩
        rw [hrec.1]
        show s.samples_taken + 1 + (r - 1 - 1) = s.samples_taken + (r - 1)
        omega

/-- Claim C2 (amended): for positive duration `d` and interval `i`,
after `start(d)` on a fresh collector, any session (ticks and stop
requests) takes at most `⌊d / i⌋ + 1` samples; and when the workload
runs the full duration (the budget of `⌊d / i⌋ ≥ 1` ticks is delivered
with `stop()` never called) the session self-terminates with exactly
`⌊d / i⌋ - 1` samples taken — not `⌊d / i⌋ + 1` — because the handler
decrements before capturing and the final tick is the terminal
transition that captures nothing. -/
theorem samples_taken_bound (i d : ℚ) (hi : 0 < i) (hd : 0 < d)
    (l : List Collector.Event)
    (hl : ∀ e ∈ l, Collector.isSessionEvent e = true)
    (ticks : List (List FrameChain × ℕ)) :
    (Collector.run (Collector.start d (Collector.init i)) l).samples_taken
        ≤ (⌊d / i⌋).toNat + 1
    ∧ (ticks.length = (⌊d / i⌋).toNat → 1 ≤ (⌊d / i⌋).toNat →
        (Collector.run (Collector.start d (Collector.init i))
            (ticks.map (fun t => Collector.Event.tick t.1 t.2))).samples_taken
          = (⌊d / i⌋).toNat - 1
        ∧ (Collector.run (Collector.start d (Collector.init i))
            (ticks.map (fun t => Collector.Event.tick t.1 t.2))).stopped
          = true) := by
  have hq : (0 : ℚ) ≤ d / i := le_of_lt (div_pos hd hi)
  have hfl : (0 : ℤ) ≤ ⌊d / i⌋ := Int.floor_nonneg.mpr hq
  have hrem : (Collector.start d (Collector.init i)).samples_remaining
      = ⌊d / i⌋ := ratTrunc_eq_floor _ hq
  constructor
  · have hpot := session_run_potential l (Collector.start d (Collector.init i)) hl
    rw [hrem] at hpot
    have htk : (Collector.start d (Collector.init i)).samples_taken = 0 := rfl
    rw [htk] at hpot
    omega
  · intro hlen hone
    have hfull := full_run_taken ticks (Collector.start d (Collector.init i))
      ((⌊d / i⌋).toNat)
      (by rw [hrem]; omega) rfl rfl hone hlen
    refine ⟨?_, hfull.2.1⟩
    rw [hfull.1]
    have htk0 : (Collector.start d (Collector.init i)).samples_taken = 0 := rfl
    rw [htk0]
    omega

/-- Counterexample to C2: interval 1 and duration 3 give a budget of
`⌊3 / 1⌋ = 3` ticks; the workload runs the full duration (all three
ticks are delivered, `stop()` is never called — `stopping` stays false
and the session self-terminates), yet `samples_taken = 2`, not
`⌊3 / 1⌋ + 1 = 4`. -/
theorem samples_taken_not_floor_plus_one :
    ⌊(3 : ℚ) / 1⌋ = 3
    ∧ (Collector.run (Collector.start 3 (Collector.init 1))
        [Collector.Event.tick [[(codeF, 3)]] 1,
         Collector.Event.tick [[(codeF, 3)]] 1,
         Collector.Event.tick [[(codeF, 3)]] 1]).stopped = true
    ∧ (Collector.run (Collector.start 3 (Collector.init 1))
        [Collector.Event.tick [[(codeF, 3)]] 1,
         Collector.Event.tick [[(codeF, 3)]] 1,
         Collector.Event.tick [[(codeF, 3)]] 1]).stopping = false
    ∧ (Collector.run (Collector.start 3 (Collector.init 1))
        [Collector.Event.tick [[(codeF, 3)]] 1,
         Collector.Event.tick [[(codeF, 3)]] 1,
         Collector.Event.tick [[(codeF, 3)]] 1]).samples_taken = 2
    ∧ (Collector.run (Collector.start 3 (Collector.init 1))
        [Collector.Event.tick [[(codeF, 3)]] 1,
         Collector.Event.tick [[(codeF, 3)]] 1,
         Collector.Event.tick [[(codeF, 3)]] 1]).samples_taken ≠ 3 + 1 := by
  refine ⟨by norm_num, ?_, ?_, ?_, ?_⟩ <;>
    · simp only [Collector.run, List.foldl]
      rw [start_init_eval]
      decide

/-- Witness for C2 (amended): the bound instantiated on a concrete
one-tick session of an interval-1 collector started with duration 3. -/
theorem samples_taken_bound_witness :
    (Collector.run (Collector.start 3 (Collector.init 1))
        [Collector.Event.tick [] 0]).samples_taken
      ≤ (⌊(3 : ℚ) / 1⌋).toNat + 1 :=
  (samples_taken_bound 1 3 (by norm_num) (by norm_num)
    [Collector.Event.tick [] 0] (by decide) []).1

/-- Witness for C6 (amended): a fresh interval-1 collector started with
duration 3 gets the budget `⌊3 / 1⌋` and an armed timer. -/
theorem start_sets_budget_and_arms_witness :
    (Collector.start 3 (Collector.init 1)).samples_remaining
      = ⌊(3 : ℚ) / (Collector.init 1).interval⌋
    ∧ (Collector.start 3 (Collector.init 1)).timerArmed = true :=
  ⟨(start_sets_budget_and_arms (Collector.init 1) 3 (by norm_num [Collector.init, Collector.reset]) (by norm_num)).1,
   (start_sets_budget_and_arms (Collector.init 1) 3 (by norm_num [Collector.init, Collector.reset]) (by norm_num)).2.1⟩
